import Mathlib

/-!
# A shallow embedding of `cmd/reserve/parsetime.go`

Go's `time.Time` is modelled as an integer count of seconds since Go's zero
time `0001-01-01 00:00:00`, in one fixed time zone (the code only ever uses
`time.Local`, so zone conversions never arise).  Nanoseconds are dropped:
every value the parser constructs has zero nanoseconds, and the only uses of
sub-second precision in the source are storage and comparison.

All integer division and remainder below is Lean's `Int` division, which for
positive divisors is floor division; this is exactly the arithmetic performed
by the normalisation helpers of Go's `time` package (`norm`,
`daysSinceEpoch`, `absDate`), which behave like floor division on every
input they receive.

The calendar conversions mirror Go's `time` package: `daysFromCivil` is
Go's `daysSinceEpoch` plus the `daysBefore` month table as used by
`time.Date`, and `civilFromDays` is Go's `absDate` (400-year / 100-year /
4-year / 1-year cycle decomposition, with the two clamping steps
`n -= n >> 2` rendered as `min _ 3`).
-/

namespace ParseTime

/-- Faithful port of `isLeapYear` from parsetime.go.  Go's `%` is truncated
division and Lean's is euclidean, but a result is `0` in one exactly when it
is `0` in the other, which is all this function tests. -/
def isLeapYear (year : Int) : Bool :=
  if year % 4 == 0 then
    if year % 100 == 0 then
      if year % 400 == 0 then true
      else false
    else true
  else false

theorem isLeapYear_iff (y : Int) :
    isLeapYear y = true ↔ (y % 4 = 0 ∧ (y % 100 ≠ 0 ∨ y % 400 = 0)) := by
  unfold isLeapYear
  split_ifs with h1 h2 h3 <;> simp_all

/-- Go `time` package `daysBefore` table: `daysBefore i` is the number of
days in a non-leap year before the end of month `i` (`i = 0` … `12`). -/
def daysBefore (i : Int) : Int :=
  if i ≤ 0 then 0
  else if i = 1 then 31
  else if i = 2 then 59
  else if i = 3 then 90
  else if i = 4 then 120
  else if i = 5 then 151
  else if i = 6 then 181
  else if i = 7 then 212
  else if i = 8 then 243
  else if i = 9 then 273
  else if i = 10 then 304
  else if i = 11 then 334
  else 365

/-- Number of days of month `m` of year `y` in the Gregorian calendar. -/
def daysInMonth (y m : Int) : Int :=
  if m = 2 then (if isLeapYear y then 29 else 28)
  else if m = 4 ∨ m = 6 ∨ m = 9 ∨ m = 11 then 30
  else 31

/-- Days since `0001-01-01` of the civil date `(y, m, d)`; Go's
`daysSinceEpoch` plus the month/day offsets added by `time.Date`.
`m` is expected in `1..12`; `d` may lie outside its month (Go lets the day
roll over, which the final linear term reproduces). -/
def daysFromCivil (y m d : Int) : Int :=
  365 * (y - 1) + (y - 1) / 4 - (y - 1) / 100 + (y - 1) / 400
    + daysBefore (m - 1)
    + (if 3 ≤ m ∧ isLeapYear y = true then 1 else 0)
    + (d - 1)

/-- The month/day lookup at the end of Go's `absDate`: `w` is a day-of-year
in non-leap coordinates (`0..364`); the first component is passed through. -/
def monthLookup (y w : Int) : Int × Int × Int :=
  if daysBefore (w / 31 + 1) ≤ w then
    (y, w / 31 + 2, w - daysBefore (w / 31 + 1) + 1)
  else
    (y, w / 31 + 1, w - daysBefore (w / 31) + 1)

/-- Leap-day adjustment of Go's `absDate`: in a leap year, day-of-year 59
(0-based) is February 29, and later days shift down by one before the
non-leap month lookup. -/
def monthFromYday (y yday : Int) : Int × Int × Int :=
  if isLeapYear y then
    if 59 < yday then monthLookup y (yday - 1)
    else if yday = 59 then (y, 2, 29)
    else monthLookup y yday
  else monthLookup y yday

/-- Go's `absDate`: recover the civil date `(y, m, d)` from a count of days
since `0001-01-01`.  The two `min _ 3` are Go's clamps `n -= n >> 2`. -/
def civilFromDays (z : Int) : Int × Int × Int :=
  let a := z / 146097
  let r := z % 146097
  let b := min (r / 36524) 3
  let r2 := r - 36524 * b
  let c := r2 / 1461
  let r3 := r2 % 1461
  let e := min (r3 / 365) 3
  let yday := r3 - 365 * e
  monthFromYday (400 * a + 100 * b + 4 * c + e + 1) yday

set_option maxHeartbeats 1000000 in
theorem monthLookup_eq (y w m d : Int) (hm : 1 ≤ m) (hm2 : m ≤ 12) (hd : 1 ≤ d)
    (hd2 : d ≤ daysBefore m - daysBefore (m - 1))
    (hw : w = daysBefore (m - 1) + d - 1) :
    monthLookup y w = (y, m, d) := by
  unfold monthLookup
  interval_cases m <;> norm_num [daysBefore] at hd2 hw <;>
  [ (rcases (by omega : w / 31 = 0 ∨ w / 31 = 0) with h | h);
    (rcases (by omega : w / 31 = 0 ∨ w / 31 = 1) with h | h);
    (rcases (by omega : w / 31 = 1 ∨ w / 31 = 2) with h | h);
    (rcases (by omega : w / 31 = 2 ∨ w / 31 = 3) with h | h);
    (rcases (by omega : w / 31 = 3 ∨ w / 31 = 4) with h | h);
    (rcases (by omega : w / 31 = 4 ∨ w / 31 = 5) with h | h);
    (rcases (by omega : w / 31 = 5 ∨ w / 31 = 6) with h | h);
    (rcases (by omega : w / 31 = 6 ∨ w / 31 = 7) with h | h);
    (rcases (by omega : w / 31 = 7 ∨ w / 31 = 8) with h | h);
    (rcases (by omega : w / 31 = 8 ∨ w / 31 = 9) with h | h);
    (rcases (by omega : w / 31 = 9 ∨ w / 31 = 10) with h | h);
    (rcases (by omega : w / 31 = 10 ∨ w / 31 = 11) with h | h)] <;>
  rw [h] <;> split <;> norm_num [daysBefore] at * <;> omega

set_option maxHeartbeats 1000000 in
theorem monthLookup_inv (y w : Int) (h0 : 0 ≤ w) (h1 : w ≤ 364) :
    (monthLookup y w).1 = y ∧
    1 ≤ (monthLookup y w).2.1 ∧ (monthLookup y w).2.1 ≤ 12 ∧
    1 ≤ (monthLookup y w).2.2 ∧
    (monthLookup y w).2.2 ≤
      daysBefore (monthLookup y w).2.1 - daysBefore ((monthLookup y w).2.1 - 1) ∧
    daysBefore ((monthLookup y w).2.1 - 1) + (monthLookup y w).2.2 - 1 = w := by
  unfold monthLookup
  have h31 : w / 31 = 0 ∨ w / 31 = 1 ∨ w / 31 = 2 ∨ w / 31 = 3 ∨ w / 31 = 4 ∨
      w / 31 = 5 ∨ w / 31 = 6 ∨ w / 31 = 7 ∨ w / 31 = 8 ∨ w / 31 = 9 ∨
      w / 31 = 10 ∨ w / 31 = 11 := by omega
  rcases h31 with h | h | h | h | h | h | h | h | h | h | h | h <;>
    rw [h] <;> split <;> norm_num [daysBefore] at * <;> omega

theorem daysInMonth_eq_diff (y m : Int) (h1 : 1 ≤ m) (h2 : m ≤ 12)
    (h3 : ¬(m = 2 ∧ isLeapYear y = true)) :
    daysInMonth y m = daysBefore m - daysBefore (m - 1) := by
  unfold daysInMonth
  interval_cases m <;> norm_num [daysBefore] <;> simp_all

theorem monthFromYday_eq (y m d : Int) (hm : 1 ≤ m) (hm2 : m ≤ 12) (hd : 1 ≤ d)
    (hd2 : d ≤ daysInMonth y m) :
    monthFromYday y
      (daysBefore (m - 1) + (if 3 ≤ m ∧ isLeapYear y = true then 1 else 0) + d - 1)
      = (y, m, d) := by
  by_cases hl : isLeapYear y = true
  · by_cases hm3 : 3 ≤ m
    · have h59 : 59 ≤ daysBefore (m - 1) := by
        interval_cases m <;> norm_num [daysBefore]
      have hdm : daysInMonth y m = daysBefore m - daysBefore (m - 1) :=
        daysInMonth_eq_diff y m hm hm2 (by omega)
      have hcond : (3 ≤ m ∧ isLeapYear y = true) := ⟨hm3, hl⟩
      rw [if_pos hcond]
      unfold monthFromYday
      rw [if_pos hl, if_pos (by omega : 59 < daysBefore (m - 1) + 1 + d - 1)]
      have : daysBefore (m - 1) + 1 + d - 1 - 1 = daysBefore (m - 1) + d - 1 := by omega
      rw [this]
      exact monthLookup_eq y _ m d hm hm2 hd (by omega) rfl
    · rw [if_neg (by omega : ¬(3 ≤ m ∧ isLeapYear y = true))]
      unfold monthFromYday
      rw [if_pos hl]
      interval_cases m
      · have hd31 : d ≤ 31 := by simpa [daysInMonth] using hd2
        rw [if_neg (by norm_num [daysBefore]; omega),
          if_neg (by norm_num [daysBefore]; omega)]
        exact monthLookup_eq y _ 1 d (by norm_num) (by norm_num) hd
          (by norm_num [daysBefore]; omega) rfl
      · have hd29 : d ≤ 29 := by simpa [daysInMonth, hl] using hd2
        by_cases h29 : d = 29
        · subst h29
          rw [if_neg (by norm_num [daysBefore]), if_pos (by norm_num [daysBefore])]
        · rw [if_neg (by norm_num [daysBefore]; omega),
            if_neg (by norm_num [daysBefore]; omega)]
          exact monthLookup_eq y _ 2 d (by norm_num) (by norm_num) hd
            (by norm_num [daysBefore]; omega) rfl
  · have hdm : daysInMonth y m = daysBefore m - daysBefore (m - 1) :=
      daysInMonth_eq_diff y m hm hm2 (by simp_all)
    rw [if_neg (by simp_all : ¬(3 ≤ m ∧ isLeapYear y = true))]
    unfold monthFromYday
    rw [if_neg (by simp_all)]
    exact monthLookup_eq y _ m d hm hm2 hd (by omega) (by omega)

set_option maxHeartbeats 1000000 in
theorem monthFromYday_inv (y w : Int) (h0 : 0 ≤ w)
    (h1 : w ≤ 364 ∨ (w = 365 ∧ isLeapYear y = true)) :
    (monthFromYday y w).1 = y ∧
    1 ≤ (monthFromYday y w).2.1 ∧ (monthFromYday y w).2.1 ≤ 12 ∧
    1 ≤ (monthFromYday y w).2.2 ∧
    (monthFromYday y w).2.2 ≤ daysInMonth y (monthFromYday y w).2.1 ∧
    daysBefore ((monthFromYday y w).2.1 - 1)
      + (if 3 ≤ (monthFromYday y w).2.1 ∧ isLeapYear y = true then 1 else 0)
      + (monthFromYday y w).2.2 - 1 = w := by
  unfold monthFromYday
  by_cases hl : isLeapYear y = true
  · rw [if_pos hl]
    by_cases h59 : 59 < w
    · rw [if_pos h59]
      obtain ⟨e1, e2, e3, e4, e5, e6⟩ := monthLookup_inv y (w - 1) (by omega) (by omega)
      set M := (monthLookup y (w - 1)).2.1 with hM
      set D := (monthLookup y (w - 1)).2.2 with hD
      have hm3 : 3 ≤ M := by
        by_contra hc
        interval_cases M <;> norm_num [daysBefore] at e5 e6 <;> omega
      have hdm : daysInMonth y M = daysBefore M - daysBefore (M - 1) :=
        daysInMonth_eq_diff y M e2 e3 (by omega)
      rw [if_pos ⟨hm3, hl⟩]
      exact ⟨e1, e2, e3, e4, by omega, by omega⟩
    · rw [if_neg h59]
      by_cases h59e : w = 59
      · rw [if_pos h59e]
        have hdm : daysInMonth y 2 = 29 := by simp [daysInMonth, hl]
        norm_num [daysBefore, hdm]
        omega
      · rw [if_neg h59e]
        obtain ⟨e1, e2, e3, e4, e5, e6⟩ := monthLookup_inv y w h0 (by omega)
        set M := (monthLookup y w).2.1 with hM
        set D := (monthLookup y w).2.2 with hD
        have hm2 : M ≤ 2 := by
          by_contra hc
          interval_cases M <;> norm_num [daysBefore] at e6 <;> omega
        have hdm : daysInMonth y M ≥ daysBefore M - daysBefore (M - 1) := by
          interval_cases M <;> norm_num [daysInMonth, daysBefore, hl]
        rw [if_neg (by omega : ¬(3 ≤ M ∧ isLeapYear y = true))]
        exact ⟨e1, e2, e3, e4, by omega, by omega⟩
  · rw [if_neg hl]
    have hw364 : w ≤ 364 := by
      rcases h1 with h | ⟨_, hx⟩
      · exact h
      · exact absurd hx hl
    obtain ⟨e1, e2, e3, e4, e5, e6⟩ := monthLookup_inv y w h0 hw364
    set M := (monthLookup y w).2.1 with hM
    set D := (monthLookup y w).2.2 with hD
    have hdm : daysInMonth y M = daysBefore M - daysBefore (M - 1) :=
      daysInMonth_eq_diff y M e2 e3 (by simp_all)
    have hcond : ¬(3 ≤ M ∧ isLeapYear y = true) := by simp_all
    rw [if_neg hcond]
    exact ⟨e1, e2, e3, e4, by omega, by omega⟩

theorem civilFromDays_decomp (a b c e w : Int) (hb : 0 ≤ b) (hb2 : b ≤ 3)
    (hc : 0 ≤ c) (hc2 : c ≤ 24) (he : 0 ≤ e) (he2 : e ≤ 3)
    (hw : 0 ≤ w) (hw2 : w ≤ 365)
    (hleap : w = 365 → e = 3 ∧ (c ≠ 24 ∨ b = 3)) :
    civilFromDays (146097 * a + 36524 * b + 1461 * c + 365 * e + w)
      = monthFromYday (400 * a + 100 * b + 4 * c + e + 1) w := by
  simp only [civilFromDays]
  have h1 : (146097 * a + 36524 * b + 1461 * c + 365 * e + w) / 146097 = a := by omega
  have h2 : (146097 * a + 36524 * b + 1461 * c + 365 * e + w) % 146097
      = 36524 * b + 1461 * c + 365 * e + w := by omega
  rw [h1, h2]
  have h3 : min ((36524 * b + 1461 * c + 365 * e + w) / 36524) 3 = b := by omega
  rw [h3]
  have h4 : 36524 * b + 1461 * c + 365 * e + w - 36524 * b = 1461 * c + 365 * e + w := by
    omega
  rw [h4]
  have h5 : (1461 * c + 365 * e + w) / 1461 = c := by omega
  have h6 : (1461 * c + 365 * e + w) % 1461 = 365 * e + w := by omega
  rw [h5, h6]
  have h7 : min ((365 * e + w) / 365) 3 = e := by omega
  rw [h7]
  have h8 : 365 * e + w - 365 * e = w := by omega
  rw [h8]

theorem yday_bounds (y m d : Int) (hm : 1 ≤ m) (hm2 : m ≤ 12) (hd : 1 ≤ d)
    (hd2 : d ≤ daysInMonth y m) :
    0 ≤ daysBefore (m - 1) + (if 3 ≤ m ∧ isLeapYear y = true then 1 else 0) + d - 1 ∧
    daysBefore (m - 1) + (if 3 ≤ m ∧ isLeapYear y = true then 1 else 0) + d - 1 ≤ 365 ∧
    (daysBefore (m - 1) + (if 3 ≤ m ∧ isLeapYear y = true then 1 else 0) + d - 1 = 365 →
      isLeapYear y = true) := by
  by_cases hl : isLeapYear y = true <;>
    interval_cases m <;>
    simp_all [daysInMonth, daysBefore] <;> omega

/-- Forward round trip: converting a valid civil date to a day count and
back is the identity. -/
theorem civilFromDays_daysFromCivil (y m d : Int) (hm : 1 ≤ m) (hm2 : m ≤ 12)
    (hd : 1 ≤ d) (hd2 : d ≤ daysInMonth y m) :
    civilFromDays (daysFromCivil y m d) = (y, m, d) := by
  obtain ⟨hw0, hw1, hw2⟩ := yday_bounds y m d hm hm2 hd hd2
  set w := daysBefore (m - 1) + (if 3 ≤ m ∧ isLeapYear y = true then 1 else 0) + d - 1
    with hwdef
  set q := y - 1 with hq
  set a := q / 400 with ha
  set b := q % 400 / 100 with hb
  set c := q % 400 % 100 / 4 with hc
  set e := q % 400 % 100 % 4 with he
  have hz : daysFromCivil y m d = 146097 * a + 36524 * b + 1461 * c + 365 * e + w := by
    unfold daysFromCivil
    have hyear : 365 * q + q / 4 - q / 100 + q / 400
        = 146097 * a + 36524 * b + 1461 * c + 365 * e := by omega
    rw [hwdef]
    omega
  have hy : 400 * a + 100 * b + 4 * c + e + 1 = y := by omega
  have hleap : w = 365 → e = 3 ∧ (c ≠ 24 ∨ b = 3) := by
    intro h365
    have := hw2 h365
    rw [isLeapYear_iff] at this
    omega
  rw [hz, civilFromDays_decomp a b c e w (by omega) (by omega) (by omega) (by omega)
    (by omega) (by omega) hw0 hw1 hleap, hy, hwdef]
  exact monthFromYday_eq y m d hm hm2 hd hd2

/-- Backward round trip: `civilFromDays` always produces a valid civil date,
and converting it back gives the original day count. -/
theorem daysFromCivil_civilFromDays (z : Int) :
    1 ≤ (civilFromDays z).2.1 ∧ (civilFromDays z).2.1 ≤ 12 ∧
    1 ≤ (civilFromDays z).2.2 ∧
    (civilFromDays z).2.2 ≤ daysInMonth (civilFromDays z).1 (civilFromDays z).2.1 ∧
    daysFromCivil (civilFromDays z).1 (civilFromDays z).2.1 (civilFromDays z).2.2 = z := by
  set a := z / 146097 with ha
  set r := z % 146097 with hr
  have hrb : 0 ≤ r ∧ r ≤ 146096 ∧ z = 146097 * a + r := by omega
  clear_value a r
  set b := min (r / 36524) 3 with hb
  set r2 := r - 36524 * b with hr2
  have hbb : 0 ≤ b ∧ b ≤ 3 := by omega
  have hr2b : 0 ≤ r2 ∧ r2 ≤ 36524 ∧ (r2 = 36524 → b = 3) ∧ r = 36524 * b + r2 := by
    omega
  clear_value b r2
  set c := r2 / 1461 with hc
  set r3 := r2 % 1461 with hr3
  have hcb : 0 ≤ c ∧ c ≤ 24 := by omega
  have hr3b : 0 ≤ r3 ∧ r3 ≤ 1460 ∧ r2 = 1461 * c + r3 := by omega
  clear_value c r3
  set e := min (r3 / 365) 3 with he
  set w := r3 - 365 * e with hw
  have heb : 0 ≤ e ∧ e ≤ 3 := by omega
  have hwb : 0 ≤ w ∧ w ≤ 365 := by omega
  have hwe : w = 365 → e = 3 ∧ (c ≠ 24 ∨ b = 3) := by omega
  have hzd : z = 146097 * a + 36524 * b + 1461 * c + 365 * e + w := by omega
  clear_value e w
  set y := 400 * a + 100 * b + 4 * c + e + 1 with hy
  clear_value y
  have hcfd : civilFromDays z = monthFromYday y w := by
    rw [hzd, hy]
    exact civilFromDays_decomp a b c e w hbb.1 hbb.2 hcb.1 hcb.2 heb.1 heb.2
      hwb.1 hwb.2 hwe
  have hwleap : w = 365 → isLeapYear y = true := by
    intro h365
    obtain ⟨he3, hcb3⟩ := hwe h365
    rw [isLeapYear_iff]
    omega
  obtain ⟨f1, f2, f3, f4, f5, f6⟩ := monthFromYday_inv y w hwb.1 (by
    rcases eq_or_lt_of_le hwb.2 with h | h
    · exact Or.inr ⟨h, hwleap h⟩
    · exact Or.inl (by omega))
  rw [hcfd]
  refine ⟨f2, f3, f4, ?_, ?_⟩
  · rw [f1]
    exact f5
  · unfold daysFromCivil
    have d400 : (y - 1) / 400 = a := by omega
    have d100 : (y - 1) / 100 = 4 * a + b := by omega
    have d4 : (y - 1) / 4 = 100 * a + 25 * b + c := by omega
    rw [f1]
    linarith [f6, hzd, d400, d100, d4]

/-! ## Go `time.Time` operations -/

/-- Go `Time.Year()` accessor. -/
def yearOf (t : Int) : Int := (civilFromDays (t / 86400)).1

/-- Go `Time.Month()` accessor. -/
def monthOf (t : Int) : Int := (civilFromDays (t / 86400)).2.1

/-- Go `Time.Day()` accessor. -/
def dayOf (t : Int) : Int := (civilFromDays (t / 86400)).2.2

/-- Go `Time.Hour()` accessor. -/
def hourOf (t : Int) : Int := t % 86400 / 3600

/-- Go `Time.Minute()` accessor. -/
def minuteOf (t : Int) : Int := t % 3600 / 60

/-- Go `Time.Second()` accessor. -/
def secondOf (t : Int) : Int := t % 60

/-- Go `Time.Weekday()` accessor: day `0` (`0001-01-01`) was a Monday,
Sunday is `0`. -/
def weekdayOf (t : Int) : Int := (t / 86400 + 1) % 7

/-- Go `time.Date` at second resolution in a fixed zone: the month is
normalised into `1..12` rolling the year (Go's `norm`), and every other
field simply rolls linearly (day overflow moves into later months, hour
overflow into later days, and so on). -/
def goDate (y mo d h mi s : Int) : Int :=
  daysFromCivil (y + (mo - 1) / 12) ((mo - 1) % 12 + 1) d * 86400
    + h * 3600 + mi * 60 + s

theorem goDate_month_valid (y mo d h mi s : Int) (h1 : 1 ≤ mo) (h2 : mo ≤ 12) :
    goDate y mo d h mi s = daysFromCivil y mo d * 86400 + h * 3600 + mi * 60 + s := by
  unfold goDate
  have e1 : (mo - 1) / 12 = 0 := by omega
  have e2 : (mo - 1) % 12 + 1 = mo := by omega
  rw [e1, e2, add_zero]

theorem hmi_accessors_goDate (y mo d h mi s : Int)
    (hh : 0 ≤ h) (hh2 : h < 24) (hmi : 0 ≤ mi) (hmi2 : mi < 60)
    (hs : 0 ≤ s) (hs2 : s < 60) :
    hourOf (goDate y mo d h mi s) = h ∧ minuteOf (goDate y mo d h mi s) = mi ∧
    secondOf (goDate y mo d h mi s) = s := by
  unfold hourOf minuteOf secondOf goDate
  omega

theorem goDate_day_succ (y mo d h mi s : Int) :
    goDate y mo d (h + 24) mi s = goDate y mo (d + 1) h mi s := by
  unfold goDate daysFromCivil
  ring

theorem date_accessors_goDate (y mo d h mi s : Int)
    (hmo : 1 ≤ mo) (hmo2 : mo ≤ 12) (hd : 1 ≤ d) (hd2 : d ≤ daysInMonth y mo)
    (ht : 0 ≤ h * 3600 + mi * 60 + s) (ht2 : h * 3600 + mi * 60 + s < 86400) :
    yearOf (goDate y mo d h mi s) = y ∧ monthOf (goDate y mo d h mi s) = mo ∧
    dayOf (goDate y mo d h mi s) = d := by
  have hD : goDate y mo d h mi s / 86400 = daysFromCivil y mo d := by
    rw [goDate_month_valid y mo d h mi s hmo hmo2]
    omega
  unfold yearOf monthOf dayOf
  rw [hD, civilFromDays_daysFromCivil y mo d hmo hmo2 hd hd2]
  exact ⟨rfl, rfl, rfl⟩

theorem accessor_bounds (t : Int) :
    1 ≤ monthOf t ∧ monthOf t ≤ 12 ∧ 1 ≤ dayOf t ∧
    dayOf t ≤ daysInMonth (yearOf t) (monthOf t) ∧
    0 ≤ hourOf t ∧ hourOf t < 24 ∧ 0 ≤ minuteOf t ∧ minuteOf t < 60 ∧
    0 ≤ secondOf t ∧ secondOf t < 60 := by
  obtain ⟨f1, f2, f3, f4, _⟩ := daysFromCivil_civilFromDays (t / 86400)
  exact ⟨f1, f2, f3, f4, by unfold hourOf; omega, by unfold hourOf; omega,
    by unfold minuteOf; omega, by unfold minuteOf; omega,
    by unfold secondOf; omega, by unfold secondOf; omega⟩

theorem daysFromCivil_accessors (t : Int) :
    daysFromCivil (yearOf t) (monthOf t) (dayOf t) = t / 86400 :=
  (daysFromCivil_civilFromDays (t / 86400)).2.2.2.2

/-- Rebuilding a time from its own calendar fields with a fresh time of day
lands on the same calendar day. -/
theorem goDate_accessors_hmi (t h mi s : Int) :
    goDate (yearOf t) (monthOf t) (dayOf t) h mi s
      = (t / 86400) * 86400 + h * 3600 + mi * 60 + s := by
  obtain ⟨f1, f2, _⟩ := accessor_bounds t
  rw [goDate_month_valid _ _ _ _ _ _ f1 f2, daysFromCivil_accessors t]

/-- Rebuilding a time from all six of its own fields is the identity. -/
theorem goDate_accessors (t : Int) :
    goDate (yearOf t) (monthOf t) (dayOf t) (hourOf t) (minuteOf t) (secondOf t)
      = t := by
  rw [goDate_accessors_hmi]
  unfold hourOf minuteOf secondOf
  omega

/-- Go `Time.Add`: seconds addition. -/
def goAdd (t d : Int) : Int := t + d

/-- Go `Time.Sub`: difference in seconds. -/
def goSub (t u : Int) : Int := t - u

/-- Go `Time.Before`. -/
def goBefore (t u : Int) : Prop := t < u

instance (t u : Int) : Decidable (goBefore t u) := by
  unfold goBefore
  infer_instance

/-- Go `Time.Round` (at second resolution) for a positive divisor: round to
the nearest multiple of `d` counted from the zero time, halves away from
zero.  `r + r < d` is Go's `lessThanHalf`. -/
def goRound (t d : Int) : Int :=
  if d ≤ 0 then t
  else if t % d + t % d < d then t - t % d else t + (d - t % d)

/-! ## The `Time` wrapper of parsetime.go

The Go `Time` struct wraps a `time.Time`; every constructor and setter below
rebuilds the wrapped value through `time.Date(..., 0, 0, time.Local)`,
zeroing seconds and nanoseconds.  Methods that mutate the receiver are
modelled as functions returning the new value.
-/

/-- `NewTime` from parsetime.go: keep the calendar day, hour and minute of
`base`, zero the seconds. -/
def NewTime (base : Int) : Int :=
  goDate (yearOf base) (monthOf base) (dayOf base) (hourOf base) (minuteOf base) 0

/-- `Time.Year` setter from parsetime.go. -/
def setYear (t year : Int) : Int :=
  goDate year (monthOf t) (dayOf t) (hourOf t) (minuteOf t) 0

/-- `Time.Month` setter from parsetime.go. -/
def setMonth (t month : Int) : Int :=
  goDate (yearOf t) month (dayOf t) (hourOf t) (minuteOf t) 0

/-- `Time.Day` setter from parsetime.go. -/
def setDay (t day : Int) : Int :=
  goDate (yearOf t) (monthOf t) day (hourOf t) (minuteOf t) 0

/-- `Time.Hour` setter from parsetime.go. -/
def setHour (t hour : Int) : Int :=
  goDate (yearOf t) (monthOf t) (dayOf t) hour (minuteOf t) 0

/-- `Time.Minute` setter from parsetime.go. -/
def setMinute (t minute : Int) : Int :=
  goDate (yearOf t) (monthOf t) (dayOf t) (hourOf t) minute 0

/-- Go `Time.AddDate`, used by `Tomorrow`, `AddMonths` and `AddDays`:
re-run `time.Date` on the shifted fields (seconds are preserved here, but
every caller in parsetime.go has zero seconds already). -/
def addDate (t years months days : Int) : Int :=
  goDate (yearOf t + years) (monthOf t + months) (dayOf t + days)
    (hourOf t) (minuteOf t) (secondOf t)

/-- `Time.Tomorrow` from parsetime.go: `AddDate(0, 0, 1)`. -/
def Tomorrow (t : Int) : Int := addDate t 0 0 1

/-- `Time.AddMonths` from parsetime.go: `AddDate(0, months, 0)`. -/
def AddMonths (t months : Int) : Int := addDate t 0 months 0

/-- `Time.AddDays` from parsetime.go: `AddDate(0, 0, days)`. -/
def AddDays (t days : Int) : Int := addDate t 0 0 days

/-- `roundUp` from parsetime.go: add 14 minutes, then round to the nearest
30-minute boundary. -/
def roundUp (t : Int) : Int := goRound (t + 14 * 60) (30 * 60)

/-- `Time.AddMinutes` from parsetime.go. -/
def AddMinutes (t d : Int) : Int :=
  let ts := goRound (t + d) (30 * 60)
  if ts - t < d then roundUp (t + d) else ts

/-- `Time.AddHours` from parsetime.go.  The inner overflow test
`ts.Sub(t.time) < d` exists in the source but can only fire on 64-bit
overflow, which the integer model does not have; it is kept for fidelity. -/
def AddHours (t hours : Int) : Int :=
  let d := hours * 3600
  let ts := t + d
  let ts2 := if ts - t < d then ts + d else ts
  roundUp ts2

/-! ## Tokens and the lexer

The `count` field of the Go `token` struct and the `token` pointer stored in
`ParseError` are used only for diagnostics and are omitted.  The unused
`badToken`/`wrongToken` error flags are omitted as well.
-/

inductive TokType where
  | TokNone | TokText | TokNumber | TokTime | TokPlus | TokNow | TokNext
  | TokFrom | TokTo | TokUntil | TokFor | TokDay | TokMonth | TokDate
  | TokTomorrow | TokNoon | TokMidnight | TokEOD | TokAM | TokPM
  | TokRelHour | TokRelDay | TokRelWeek | TokOrdinal
deriving Repr, DecidableEq

/-- The `tokTypes` name map from parsetime.go (used in one error message). -/
def tokTypes : TokType → String
  | .TokNone => "none"
  | .TokText => "text"
  | .TokNumber => "number"
  | .TokTime => "time"
  | .TokPlus => "plus"
  | .TokNow => "now"
  | .TokNext => "next"
  | .TokFrom => "from"
  | .TokTo => "to"
  | .TokUntil => "until"
  | .TokFor => "for"
  | .TokDay => "day"
  | .TokMonth => "month"
  | .TokDate => "date"
  | .TokTomorrow => "tomorrow"
  | .TokNoon => "noon"
  | .TokMidnight => "midnight"
  | .TokEOD => "eod"
  | .TokAM => "am"
  | .TokPM => "pm"
  | .TokRelHour => "hour"
  | .TokRelDay => "day"
  | .TokRelWeek => "week"
  | .TokOrdinal => "ord"

structure Token where
  val : String := ""
  num : Int := 0
  type : TokType := .TokNone
  year : Int := 0
  month : Int := 0
  day : Int := 0
  hour : Int := 0
  minute : Int := 0
deriving Repr, DecidableEq

/-- The `Text2Tok` map from parsetime.go (`Option` in place of the map's
comma-ok idiom). -/
def Text2Tok (s : String) : Option TokType :=
  if s = "plus" then some .TokPlus
  else if s = "for" then some .TokFor
  else if s = "next" then some .TokNext
  else if s = "now" then some .TokNow
  else if s = "from" then some .TokFrom
  else if s = "to" then some .TokTo
  else if s = "until" then some .TokUntil
  else if s = "mon" ∨ s = "tue" ∨ s = "wed" ∨ s = "thu" ∨ s = "fri" ∨ s = "sat"
      ∨ s = "sun" ∨ s = "monday" ∨ s = "tuesday" ∨ s = "wednesday"
      ∨ s = "thursday" ∨ s = "friday" ∨ s = "saturday" ∨ s = "sunday" then
    some .TokDay
  else if s = "jan" ∨ s = "feb" ∨ s = "mar" ∨ s = "apr" ∨ s = "may" ∨ s = "jun"
      ∨ s = "jul" ∨ s = "aug" ∨ s = "sep" ∨ s = "oct" ∨ s = "nov" ∨ s = "dec"
      ∨ s = "january" ∨ s = "february" ∨ s = "march" ∨ s = "april"
      ∨ s = "june" ∨ s = "july" ∨ s = "august" ∨ s = "september"
      ∨ s = "october" ∨ s = "november" ∨ s = "december" then
    some .TokMonth
  else if s = "tomorrow" then some .TokTomorrow
  else if s = "noon" then some .TokNoon
  else if s = "midnight" then some .TokMidnight
  else if s = "eod" then some .TokEOD
  else if s = "am" then some .TokAM
  else if s = "pm" then some .TokPM
  else if s = "h" ∨ s = "hour" ∨ s = "hours" then some .TokRelHour
  else if s = "d" ∨ s = "day" ∨ s = "days" then some .TokRelDay
  else if s = "w" ∨ s = "week" ∨ s = "weeks" then some .TokRelWeek
  else if s = "nd" ∨ s = "rd" ∨ s = "st" ∨ s = "th" then some .TokOrdinal
  else none

/-- The `Days` weekday map from parsetime.go; a missing key yields the Go
zero value `0`, as with `Days[t.Val]`. -/
def Days (s : String) : Int :=
  if s = "sunday" ∨ s = "sun" then 0
  else if s = "monday" ∨ s = "mon" then 1
  else if s = "tuesday" ∨ s = "tue" then 2
  else if s = "wednesday" ∨ s = "wed" then 3
  else if s = "thursday" ∨ s = "thu" then 4
  else if s = "friday" ∨ s = "fri" then 5
  else if s = "saturday" ∨ s = "sat" then 6
  else 0

/-- The `Months` map from parsetime.go; a missing key yields `0`. -/
def Months (s : String) : Int :=
  if s = "january" ∨ s = "jan" then 1
  else if s = "february" ∨ s = "feb" then 2
  else if s = "march" ∨ s = "mar" then 3
  else if s = "april" ∨ s = "apr" then 4
  else if s = "may" then 5
  else if s = "june" ∨ s = "jun" then 6
  else if s = "july" ∨ s = "jul" then 7
  else if s = "august" ∨ s = "aug" then 8
  else if s = "september" ∨ s = "sep" then 9
  else if s = "october" ∨ s = "oct" then 10
  else if s = "november" ∨ s = "nov" then 11
  else if s = "december" ∨ s = "dec" then 12
  else 0

/-- Errors of parsetime.go.  Plain `fmt.Errorf` errors are modelled as a
`ParseError` with every flag `false` (callers only ever look at the flags on
errors that the source created as `*ParseError`). -/
structure ParseError where
  msg : String := ""
  endOfInput : Bool := false
  notFound : Bool := false
  invalid : Bool := false
  dateInvalid : Bool := false
deriving Repr, DecidableEq

/-- `strings.Join(args, " ")` as a character list. -/
def joinArgs : List String → List Char
  | [] => []
  | [a] => a.toList
  | a :: rest => a.toList ++ ' ' :: joinArgs rest

/-- `strings.Split(s, sep)` for a one-character separator. -/
def splitOnChar (s : String) (sep : Char) : List String :=
  go s.toList []
where
  go : List Char → List Char → List String
    | [], cur => [String.mk cur.reverse]
    | c :: cs, cur =>
        if c = sep then String.mk cur.reverse :: go cs []
        else go cs (c :: cur)

/-- `strings.HasPrefix`. -/
def strHasPrefix (s p : String) : Bool := p.toList.isPrefixOf s.toList

/-- `strconv.Atoi` as used on digit strings, with the error discarded and
the field left `0` (Go zero value) on failure; `Atoi` fails on the empty
string and on values beyond `MaxInt64`. -/
def atoi (s : String) : Int :=
  if s.toList ≠ [] ∧ s.toList.all Char.isDigit then
    let n : Nat := s.toList.foldl (fun a c => a * 10 + (c.toNat - 48)) 0
    if n ≤ 9223372036854775807 then (n : Int) else 0
  else 0

/-- The anchored regular expression `^[0-9]{4}-[0-9]{2}-[0-9]{2}$`. -/
def dateFormatOK (s : String) : Bool :=
  match s.toList with
  | [a, b, c, d, e, f, g, i, j, k] =>
      a.isDigit && b.isDigit && c.isDigit && d.isDigit && e = '-' &&
      f.isDigit && g.isDigit && i = '-' && j.isDigit && k.isDigit
  | _ => false

/-- `token.dateValid` from parsetime.go. -/
def dateValid (t : Token) : Except ParseError Unit :=
  if t.month = 0 then
    .error { msg := "month is zero", dateInvalid := true }
  else if 12 < t.month then
    .error { msg := "month too large", dateInvalid := true }
  else if t.day = 0 then
    .error { msg := "day is zero", dateInvalid := true }
  else if t.month = 2 ∧ isLeapYear t.year = true ∧ 29 < t.day then
    .error { msg := "day too large", dateInvalid := true }
  else if t.month = 2 ∧ isLeapYear t.year = false ∧ 28 < t.day then
    .error { msg := "day too large", dateInvalid := true }
  else if (monthsWith31 t.month = true ∧ 31 < t.day)
      ∨ (monthsWith31 t.month = false ∧ 30 < t.day) then
    .error { msg := "day too large", dateInvalid := true }
  else
    .ok ()
where
  /-- The `Months31` membership test (`_, ok := Months31[t.Month]`). -/
  monthsWith31 (m : Int) : Bool :=
    m == 1 || m == 3 || m == 5 || m == 7 || m == 8 || m == 10 || m == 12

/-- `fifo.Push` from parsetime.go: classify a finished token and append it.
Returns the updated queue together with the token as mutated by `Push`
(Go mutates it in place; the final value is visible to the caller's error
message).  A `TokNone` token is dropped. -/
def Push (acc : List Token) (t : Token) : Except ParseError (List Token × Token) :=
  match t.type with
  | .TokNone => .ok (acc, t)
  | .TokText =>
      match Text2Tok t.val with
      | none => .ok (acc ++ [t], t)
      | some ty =>
          match ty with
          | .TokNoon =>
              let t := { t with type := .TokTime, hour := 12, minute := 0 }
              .ok (acc ++ [t], t)
          | .TokMidnight =>
              let t := { t with type := .TokTime, hour := 0, minute := 0 }
              .ok (acc ++ [t], t)
          | .TokEOD =>
              let t := { t with type := .TokTime, hour := 17, minute := 0 }
              .ok (acc ++ [t], t)
          | _ =>
              let t := { t with type := ty }
              .ok (acc ++ [t], t)
  | .TokNumber =>
      let t := { t with num := atoi t.val }
      .ok (acc ++ [t], t)
  | .TokTime =>
      let p := splitOnChar t.val ':'
      let t := { t with hour := atoi (p.headD ""), minute := atoi (p.getD 1 "") }
      .ok (acc ++ [t], t)
  | .TokDate =>
      if dateFormatOK t.val then
        let p := splitOnChar t.val '-'
        let t := { t with year := atoi (p.headD ""), month := atoi (p.getD 1 ""),
                          day := atoi (p.getD 2 "") }
        match dateValid t with
        | .ok _ => .ok (acc ++ [t], t)
        | .error e =>
            .error { msg := "invalid date: [" ++ t.val ++ "] (" ++ e.msg ++ ")" }
      else
        .error { msg := "invalid date format [" ++ t.val ++ "]" }
  | _ => .ok (acc ++ [t], t)

/-- The rune loop of `tokenize` from parsetime.go.  `unicode.IsLetter` and
`unicode.IsDigit` are modelled on the ASCII range (`Char.isAlpha` /
`Char.isDigit`), which is exhaustive for the lower-cased grammar. -/
def tokenizeLoop : List Char → Token → List Token → Except ParseError (List Token)
  | [], tok, acc =>
      match Push acc tok with
      | .error e => .error e
      | .ok (acc, _) => .ok acc
  | r :: rs, tok, acc =>
      if tok.type = .TokText ∧ r.isAlpha then
        tokenizeLoop rs { tok with val := tok.val.push r } acc
      else if tok.type = .TokText ∧ r = '-' then
        tokenizeLoop rs { tok with val := tok.val.push r, type := .TokDate } acc
      else if tok.type = .TokNumber ∧ r.isDigit then
        tokenizeLoop rs { tok with val := tok.val.push r } acc
      else if tok.type = .TokNumber ∧ r = ':' then
        tokenizeLoop rs { tok with val := tok.val.push r, type := .TokTime } acc
      else if tok.type = .TokNumber ∧ r = '-' then
        tokenizeLoop rs { tok with val := tok.val.push r, type := .TokDate } acc
      else if tok.type = .TokDate ∧ (r.isDigit ∨ r = '-') then
        tokenizeLoop rs { tok with val := tok.val.push r } acc
      else if tok.type = .TokTime ∧ r.isDigit then
        tokenizeLoop rs { tok with val := tok.val.push r } acc
      else
        match Push acc tok with
        | .error e => .error e
        | .ok (acc, tok) =>
            if r.isAlpha then
              tokenizeLoop rs { val := r.toString, type := .TokText } acc
            else if r.isDigit then
              tokenizeLoop rs { val := r.toString, type := .TokNumber } acc
            else if r = '+' then
              tokenizeLoop rs { val := r.toString, type := .TokPlus } acc
            else if r = ' ' then
              tokenizeLoop rs {} acc
            else
              .error { msg := "malformed value: type " ++ tokTypes tok.type
                ++ ", val \x22" ++ r.toString ++ "\x22" }

/-- `tokenize` from parsetime.go: join the arguments with spaces, lower-case
them, and run the rune loop starting from an empty token. -/
def tokenize (args : List String) : Except ParseError (List Token) :=
  tokenizeLoop ((joinArgs args).map Char.toLower) {} []

/-! ## The parser

The mutable `fifo` is threaded explicitly: each operation returns the
remaining queue.  `fifo.Pop`/`fifo.Peek` errors are end-of-input
`ParseError`s as in the source.
-/

/-- `fifo.GetToken` from parsetime.go: peek, compare the type, consume only
on a match.  The error carries `notFound` on a type mismatch and
`endOfInput` on an empty queue. -/
def GetToken (tt : TokType) (toks : List Token) : Except ParseError Token × List Token :=
  match toks with
  | [] => (.error { msg := "end of input", endOfInput := true }, [])
  | t :: rest =>
      if t.type = tt then (.ok t, rest)
      else (.error { msg := "not found", notFound := true }, t :: rest)

/-- `isRelative` from parsetime.go. -/
def isRelative (tt : TokType) : Bool :=
  match tt with
  | .TokRelHour => true
  | .TokRelDay => true
  | .TokRelWeek => true
  | _ => false

/-- `parseRelativeDuration` from parsetime.go, returning the duration in
seconds (`time.ParseDuration("%dh")` of `dur` hours).  Go's `int64`
overflow and the `ParseDuration` overflow panic (reachable only beyond
`2562047` hours) are not modelled; the value is exact. -/
def parseRelativeDuration (toks : List Token) : Except ParseError (Int × List Token) :=
  match GetToken .TokNumber toks with
  | (.error e, _) =>
      if e.notFound then .error { msg := "expect numeric value in duration", invalid := true }
      else .error { msg := "expect duration", endOfInput := true }
  | (.ok num, rest) =>
      match rest with
      | [] => .ok (num.num * 3600, [])
      | rel :: rest2 =>
          if isRelative rel.type then
            match rel.type with
            | .TokRelHour => .ok (num.num * 3600, rest2)
            | .TokRelDay => .ok (24 * num.num * 3600, rest2)
            | _ => .ok (24 * 7 * num.num * 3600, rest2)
          else
            .error { msg := "invalid duration qualifier: " ++ rel.val, invalid := true }

/-- Zero-padded two-digit rendering, Go's `%02.2d` for values in `0..99`. -/
def pad2 (n : Int) : String :=
  if 0 ≤ n ∧ n < 10 then "0" ++ toString n else toString n

/-- `Time.ParsePM` from parsetime.go: consume `AM` and leave the time
unchanged; on `PM`, reject hours at or after noon with an `InvalidValue`
error, otherwise add twelve hours; consume nothing otherwise. -/
def ParsePM (t : Int) (toks : List Token) : Except ParseError (Int × List Token) :=
  match GetToken .TokAM toks with
  | (.ok _, rest) => .ok (t, rest)
  | (.error _, _) =>
      match GetToken .TokPM toks with
      | (.ok _, rest) =>
          if 12 ≤ hourOf t then
            .error { msg := "time out of range: " ++ pad2 (hourOf t) ++ ":"
              ++ pad2 (minuteOf t) ++ "PM", invalid := true }
          else
            .ok (t + 12 * 3600, rest)
      | (.error _, _) => .ok (t, toks)

/-- `Time.Parse` from parsetime.go (`timeOnly` is `TimeOnly = true` or
`TimeAndNumber = false`): accept a time token, or — when numbers are
allowed — a number as an hour count, then an optional AM/PM suffix. -/
def timeParse (t : Int) (toks : List Token) (timeOnly : Bool) :
    Except ParseError (Int × List Token) :=
  match toks with
  | [] => .error { msg := "end of input", endOfInput := true }
  | ts :: rest =>
      let t1 := NewTime t
      if ts.type = .TokTime then
        ParsePM (setMinute (setHour t1 ts.hour) ts.minute) rest
      else if ¬timeOnly ∧ ts.type = .TokNumber then
        ParsePM (setMinute (setHour t1 ts.num) 0) rest
      else
        .error { msg := "expected time, got \x22" ++ ts.val ++ "\x22", invalid := true }

/-- `time.Parse("2006-01-02 15:04:05.000000000", fmt.Sprintf(...))` as used
by the month and date branches of `parseTimeSpec`: the year must print as
exactly four digits, the month and day must be in range for the layout and
the calendar; the hour, minute and second always come from accessors and are
in range.  On success the parsed instant is rebuilt with `time.Date`. -/
def goTimeParseYMD (y mo d h mi s : Int) : Except ParseError Int :=
  if 1000 ≤ y ∧ y ≤ 9999 ∧ 1 ≤ mo ∧ mo ≤ 12 ∧ 1 ≤ d ∧ d ≤ daysInMonth y mo then
    .ok (goDate y mo d h mi s)
  else
    .error { msg := "parsing time: field out of range" }

/-- The `for`/`switch` loop of `parseTimeSpec` from parsetime.go.  Only the
`TokNow` arm stays in the loop; every other arm either breaks with a value
or fails, so the loop is structural recursion on the queue. -/
def parseTimeSpecLoop (now start : Int) (timespec : Option Int) :
    List Token → Except ParseError (Int × List Token)
  | [] => .error { msg := "end of input", endOfInput := true }
  | t :: rest =>
    match t.type with
    | .TokNow => parseTimeSpecLoop now start (some (NewTime start)) rest
    | .TokTomorrow =>
        -- tomorrow [<time>]
        let ts0 := timespec.getD (NewTime now)
        match timeParse ts0 rest false with
        | .ok (ts1, rest1) => .ok (Tomorrow ts1, rest1)
        | .error e => if e.endOfInput then .ok (Tomorrow ts0, rest) else .error e
    | .TokDay =>
        -- <day> [<time>]
        let dayN := Days t.val
        let today := weekdayOf start
        let dist := (if dayN < today then dayN + 7 else dayN) - today
        let ts0 := AddDays (NewTime start) dist
        match timeParse ts0 rest false with
        | .ok (ts1, rest1) => .ok (ts1, rest1)
        | .error e => if e.endOfInput then .ok (ts0, rest) else .error e
    | .TokMonth =>
        -- <month> <day>[<ordinal>] <time> [<year>]
        let mo := Months t.val
        let yr := if mo < monthOf start then yearOf start + 1 else yearOf start
        match GetToken .TokNumber rest with
        | (.error e, _) => .error e
        | (.ok tn, rest1) =>
          match goTimeParseYMD yr mo tn.num (hourOf start) (minuteOf start) (secondOf start) with
          | .error e => .error e
          | .ok parsed =>
            let ts0 := NewTime parsed
            -- consume and discard any ordinal
            let rest2 := (GetToken .TokOrdinal rest1).2
            match timeParse ts0 rest2 true with
            | .error e => .error e
            | .ok (ts1, rest3) =>
              match GetToken .TokNumber rest3 with
              | (.ok tn2, rest4) =>
                  if tn2.val.length < 4 then
                    .error { msg := "year needs to be four digits", invalid := true }
                  else
                    .ok (setYear ts1 tn2.num, rest4)
              | (.error _, _) => .ok (ts1, rest3)
    | .TokDate =>
        -- <date> [<time>]
        match goTimeParseYMD t.year t.month t.day
            (hourOf start) (minuteOf start) (secondOf start) with
        | .error e => .error e
        | .ok parsed =>
          let ts0 := NewTime parsed
          match timeParse ts0 rest false with
          | .ok (ts1, rest1) => .ok (ts1, rest1)
          | .error e =>
              if e.endOfInput then .ok (ts0, rest)
              else if strHasPrefix e.msg "expected time" then .ok (ts0, rest)
              else .error e
    | .TokTime =>
        -- <time> [<tomorrow>]
        let ts0 := setMinute (setHour (NewTime start) t.hour) t.minute
        match ParsePM ts0 rest with
        | .error e => .error e
        | .ok (ts1, rest1) =>
          match GetToken .TokTomorrow rest1 with
          | (.ok _, rest2) =>
              .ok (Tomorrow (setDay (setMonth (setYear ts1 (yearOf now))
                (monthOf now)) (dayOf now)), rest2)
          | (.error _, rest2) => .ok (ts1, rest2)
    | .TokNumber =>
        -- <number> [<am|pm>]
        let ts0 := NewTime start
        match rest with
        | [] =>
            -- original timespec: a bare trailing number is a count of hours
            .ok (AddHours ts0 t.num, [])
        | _ =>
          let ts1 := setMinute (setHour ts0 t.num) 0
          match ParsePM ts1 rest with
          | .error e => .error e
          | .ok (ts2, rest1) =>
            match GetToken .TokTomorrow rest1 with
            | (.ok _, rest2) =>
                .ok (Tomorrow (setDay (setMonth (setYear ts2 (yearOf now))
                  (monthOf now)) (dayOf now)), rest2)
            | (.error _, rest2) => .ok (ts2, rest2)
    | .TokFor | .TokPlus =>
        -- <plus> <duration> <relspec>
        let ts0 := timespec.getD (NewTime start)
        match parseRelativeDuration rest with
        | .error e => .error e
        | .ok (d, rest1) => .ok (AddMinutes ts0 d, rest1)
    | _ =>
        .error { msg := "unknown date/time value: \x22" ++ t.val ++ "\x22 ("
          ++ tokTypes t.type ++ ")", invalid := true }

/-- `parseTimeSpec` from parsetime.go. -/
def parseTimeSpec (now start : Int) (toks : List Token) :
    Except ParseError (Int × List Token) :=
  parseTimeSpecLoop now start none toks

/-- The `again:`/`goto again` loop at the top of `ParseRange`: skip leading
`from` tokens and return the first other token (unconsumed) or the
"insufficient timespec" error on an empty queue. -/
def skipFrom : List Token → Except ParseError (Token × List Token)
  | [] => .error { msg := "insufficient timespec in arguments" }
  | t :: rest => if t.type = .TokFrom then skipFrom rest else .ok (t, t :: rest)

/-- `ParseRange` from parsetime.go after tokenization. -/
def parseRangeToks (now : Int) (toks : List Token) : Except ParseError (Int × Int) :=
  match skipFrom toks with
  | .error e => .error e
  | .ok (t, toks1) =>
    let toks2 := if t.type = .TokUntil ∨ t.type = .TokTo then toks1.tail else toks1
    match parseTimeSpec now now toks2 with
    | .error e => .error e
    | .ok (timespec, toks3) =>
      if timespec < now then .error { msg := "start is in the past" }
      else if t.type = .TokPlus ∨ t.type = .TokUntil ∨ t.type = .TokTo then
        .ok (now, timespec)
      else
        match toks3 with
        | [] => .ok (now, timespec)
        | t2 :: _ =>
          if ¬(t2.type = .TokUntil ∨ t2.type = .TokTo ∨ t2.type = .TokPlus
              ∨ t2.type = .TokFor) then
            .error { msg := "missing separator between start and end" }
          else
            let toks4 := if t2.type = .TokPlus ∨ t2.type = .TokFor
              then toks3 else toks3.tail
            match parseTimeSpec now timespec toks4 with
            | .error e => .error e
            | .ok (tval2, toks5) =>
              match toks5 with
              | _ :: _ => .error { msg := "extra arguments beyond timespec", invalid := true }
              | [] =>
                let endT := goRound tval2 60
                if endT < timespec then .error { msg := "end before start" }
                else .ok (timespec, endT)

/-- `ParseRange` from parsetime.go. -/
def ParseRange (now : Int) (args : List String) : Except ParseError (Int × Int) :=
  match tokenize args with
  | .error e => .error { msg := e.msg }
  | .ok toks => parseRangeToks now toks

/-- `ParseDuration` from parsetime.go after tokenization.  Leftover tokens
after the timespec are ignored. -/
def parseDurationToks (now : Int) (toks : List Token) : Except ParseError Int :=
  match toks with
  | [] => .error { msg := "insufficient timespec in arguments" }
  | t :: rest =>
    let toks1 := if t.type = .TokUntil ∨ t.type = .TokTo then rest else t :: rest
    match parseTimeSpec now now toks1 with
    | .error e => .error e
    | .ok (tval, _) =>
      if tval < now then .error { msg := "start is in the past" }
      else .ok tval

/-- `ParseDuration` from parsetime.go. -/
def ParseDuration (now : Int) (args : List String) : Except ParseError Int :=
  match tokenize args with
  | .error e => .error { msg := e.msg }
  | .ok toks => parseDurationToks now toks

instance {ε α : Type} [DecidableEq ε] [DecidableEq α] : DecidableEq (Except ε α) := fun a b =>
  match a, b with
  | .ok x, .ok y =>
      if h : x = y then .isTrue (by rw [h])
      else .isFalse (fun hc => by cases hc; exact h rfl)
  | .ok _, .error _ => .isFalse (fun hc => by cases hc)
  | .error _, .ok _ => .isFalse (fun hc => by cases hc)
  | .error e, .error f =>
      if h : e = f then .isTrue (by rw [h])
      else .isFalse (fun hc => by cases hc; exact h rfl)

/-! ## Derived facts about the `Time` wrapper -/

theorem NewTime_val (t : Int) :
    NewTime t = (t / 86400) * 86400 + hourOf t * 3600 + minuteOf t * 60 := by
  unfold NewTime
  rw [goDate_accessors_hmi]
  ring

theorem setHour_val (t h : Int) :
    setHour t h = (t / 86400) * 86400 + h * 3600 + minuteOf t * 60 := by
  unfold setHour
  rw [goDate_accessors_hmi]
  ring

theorem setMinute_val (t m : Int) :
    setMinute t m = (t / 86400) * 86400 + hourOf t * 3600 + m * 60 := by
  unfold setMinute
  rw [goDate_accessors_hmi]
  ring

theorem NewTime_of_sec_zero (t : Int) (h : t % 60 = 0) : NewTime t = t := by
  rw [NewTime_val]
  unfold hourOf minuteOf
  omega

theorem NewTime_accessors (t : Int) :
    yearOf (NewTime t) = yearOf t ∧ monthOf (NewTime t) = monthOf t ∧
    dayOf (NewTime t) = dayOf t ∧ hourOf (NewTime t) = hourOf t ∧
    minuteOf (NewTime t) = minuteOf t ∧ secondOf (NewTime t) = 0 := by
  obtain ⟨b1, b2, b3, b4, b5, b6, b7, b8, _, _⟩ := accessor_bounds t
  obtain ⟨d1, d2, d3⟩ := date_accessors_goDate (yearOf t) (monthOf t) (dayOf t)
    (hourOf t) (minuteOf t) 0 b1 b2 b3 b4 (by omega) (by omega)
  obtain ⟨h1, h2, h3⟩ := hmi_accessors_goDate (yearOf t) (monthOf t) (dayOf t)
    (hourOf t) (minuteOf t) 0 b5 b6 b7 b8 (by omega) (by omega)
  exact ⟨d1, d2, d3, h1, h2, h3⟩

theorem addDate_zero (t : Int) : addDate t 0 0 0 = t := by
  unfold addDate
  rw [show yearOf t + 0 = yearOf t from by ring, show monthOf t + 0 = monthOf t from by ring,
    show dayOf t + 0 = dayOf t from by ring]
  exact goDate_accessors t

theorem hmi_addDate (t a b c : Int) :
    hourOf (addDate t a b c) = hourOf t ∧ minuteOf (addDate t a b c) = minuteOf t ∧
    secondOf (addDate t a b c) = secondOf t := by
  obtain ⟨_, _, _, _, b5, b6, b7, b8, b9, b10⟩ := accessor_bounds t
  exact hmi_accessors_goDate _ _ _ _ _ _ b5 b6 b7 b8 b9 b10

/-! ## Claims -/

/-- C4: `AddMinutes(anchor, d)` computes `naive = anchor + d` and
`rounded = naive` rounded to the nearest 30 minutes; if `rounded - anchor < d`
it returns `roundUp(naive)` instead of `rounded`, where
`roundUp(t) = (t + 14 minutes)` rounded to the nearest 30-minute boundary;
otherwise it returns `rounded`. -/
theorem C4_addMinutes_policy (anchor d : Int) :
    AddMinutes anchor d =
      if goRound (anchor + d) (30 * 60) - anchor < d
      then goRound (anchor + d + 14 * 60) (30 * 60)
      else goRound (anchor + d) (30 * 60) := rfl

/-- C7 counterexample: `dateValid` accepts month `-1`, which is not a
Gregorian-valid month, so over all integers the claimed equivalence with the
Gregorian calendar fails. -/
theorem C7_dateValid_counterexample :
    dateValid { year := 2021, month := -1, day := 15 } = .ok () ∧
    ¬(1 ≤ (-1 : Int) ∧ (-1 : Int) ≤ 12 ∧ 1 ≤ (15 : Int) ∧
      (15 : Int) ≤ daysInMonth 2021 (-1)) := by
  constructor
  · rfl
  · intro ⟨h, _⟩
    omega

/-- C7 amended: for nonnegative month and day fields, `dateValid` accepts
exactly the Gregorian-valid dates (month in `1..12`, day in
`1..daysInMonth`), and `isLeapYear` is divisibility by 4 and either not by
100 or by 400 (so 2016 and 2000 are leap; 1900, 1700, 2015 are not). -/
theorem C7_dateValid_gregorian (y m d : Int) (hm : 0 ≤ m) (hd : 0 ≤ d) :
    ((dateValid { year := y, month := m, day := d } = .ok ()) ↔
      (1 ≤ m ∧ m ≤ 12 ∧ 1 ≤ d ∧ d ≤ daysInMonth y m)) ∧
    (isLeapYear y = true ↔ (y % 4 = 0 ∧ (y % 100 ≠ 0 ∨ y % 400 = 0))) := by
  refine ⟨?_, isLeapYear_iff y⟩
  by_cases hl : isLeapYear y = true <;>
    unfold dateValid daysInMonth <;>
    simp only [dateValid.monthsWith31, hl] <;>
    split_ifs <;>
    simp_all <;>
    omega

/-- C7 witness: February 29 of 2016 (a leap year) is accepted. -/
theorem C7_dateValid_witness :
    dateValid { year := 2016, month := 2, day := 29 } = .ok () :=
  (C7_dateValid_gregorian 2016 2 29 (by norm_num) (by norm_num)).1.mpr (by decide)

/-- C9: a PM token after a resolved time with hour 12 or more fails with the
InvalidValue error "time out of range: HH:MMPM" (so "12pm" for noon is
rejected rather than read as 12:00), for hours 0 through 11 PM adds exactly
twelve hours, and an AM token is consumed leaving the time unchanged. -/
theorem C9_ParsePM_noon (t : Int) (tok : Token) (rest : List Token) :
    (tok.type = .TokPM → 12 ≤ hourOf t →
      ParsePM t (tok :: rest) = .error { msg := ("time out of range: "
        ++ pad2 (hourOf t) ++ ":" ++ pad2 (minuteOf t) ++ "PM"), invalid := true }) ∧
    (tok.type = .TokPM → hourOf t < 12 →
      ParsePM t (tok :: rest) = .ok (t + 12 * 3600, rest)) ∧
    (tok.type = .TokAM → ParsePM t (tok :: rest) = .ok (t, rest)) := by
  refine ⟨?_, ?_, ?_⟩
  · intro hpm hge
    simp [ParsePM, GetToken, hpm, hge]
  · intro hpm hlt
    simp [ParsePM, GetToken, hpm, (by omega : ¬12 ≤ hourOf t)]
    omega
  · intro ham
    simp [ParsePM, GetToken, ham]

/-- C9 witness: "12:00" followed by PM is rejected as out of range. -/
theorem C9_ParsePM_noon_witness :
    ParsePM (goDate 2021 1 1 12 0 0) [{ type := .TokPM }]
      = .error { msg := ("time out of range: "
          ++ pad2 (hourOf (goDate 2021 1 1 12 0 0)) ++ ":"
          ++ pad2 (minuteOf (goDate 2021 1 1 12 0 0)) ++ "PM"), invalid := true } :=
  (C9_ParsePM_noon (goDate 2021 1 1 12 0 0) { type := .TokPM } []).1 rfl (by decide)

theorem daysFromCivil_succ_day (y m d : Int) :
    daysFromCivil y m (d + 1) = daysFromCivil y m d + 1 := by
  unfold daysFromCivil
  ring

/-- C10: the hour and minute of a lexed time token are never range-checked
(`fifo.Push` always succeeds on a time token); out-of-range values are
normalised by calendar rollover when the timestamp is built, so the phrase
"24:00" lexes successfully and resolves to 00:00 of the day after the
anchor, and an overlarge minute carries into the hour. -/
theorem C10_time_token_rollover :
    (∀ (acc : List Token) (t : Token), t.type = .TokTime → ∃ p, Push acc t = .ok p) ∧
    (tokenize ["24:00"]
      = .ok [{ val := "24:00", type := .TokTime, hour := 24, minute := 0 }]) ∧
    (∀ now start : Int,
      parseTimeSpec now start [{ val := "24:00", type := .TokTime, hour := 24, minute := 0 }]
        = .ok (goDate (yearOf start) (monthOf start) (dayOf start + 1) 0 0 0, [])) ∧
    (∀ y mo d h mi s : Int, goDate y mo d h (mi + 60) s = goDate y mo d (h + 1) mi s) := by
  refine ⟨?_, by decide, ?_, ?_⟩
  · intro acc t ht
    simp only [Push, ht]
    exact ⟨_, rfl⟩
  · intro now start
    obtain ⟨_, _, _, _, b5, b6, b7, b8, _, _⟩ := accessor_bounds start
    have hN : NewTime start
        = (start / 86400) * 86400 + hourOf start * 3600 + minuteOf start * 60 :=
      NewTime_val start
    have hX : setHour (NewTime start) 24
        = (start / 86400 + 1) * 86400 + minuteOf start * 60 := by
      rw [setHour_val, hN]
      have h1 : ((start / 86400) * 86400 + hourOf start * 3600 + minuteOf start * 60)
          / 86400 = start / 86400 := by omega
      have h2 : minuteOf ((start / 86400) * 86400 + hourOf start * 3600
          + minuteOf start * 60) = minuteOf start := by
        unfold minuteOf
        omega
      rw [h1, h2]
      ring
    have hts : setMinute (setHour (NewTime start) 24) 0
        = (start / 86400 + 1) * 86400 := by
      rw [setMinute_val, hX]
      have h1 : ((start / 86400 + 1) * 86400 + minuteOf start * 60) / 86400
          = start / 86400 + 1 := by omega
      have h2 : hourOf ((start / 86400 + 1) * 86400 + minuteOf start * 60) = 0 := by
        unfold hourOf
        omega
      rw [h1, h2]
      ring
    have hR : goDate (yearOf start) (monthOf start) (dayOf start + 1) 0 0 0
        = (start / 86400 + 1) * 86400 := by
      obtain ⟨c1, c2, _⟩ := accessor_bounds start
      rw [goDate_month_valid _ _ _ _ _ _ c1 c2, daysFromCivil_succ_day,
        daysFromCivil_accessors]
      ring
    simp only [parseTimeSpec, parseTimeSpecLoop, ParsePM, GetToken, hts, hR]
  · intro y mo d h mi s
    unfold goDate
    ring

/-- C10 witness: a concrete instance of the "24:00" resolution, one day
after a concrete anchor. -/
theorem C10_time_token_rollover_witness :
    parseTimeSpec (goDate 2021 3 1 8 0 0) (goDate 2021 3 1 8 0 0)
      [{ val := "24:00", type := .TokTime, hour := 24, minute := 0 }]
      = .ok (goDate (yearOf (goDate 2021 3 1 8 0 0)) (monthOf (goDate 2021 3 1 8 0 0))
          (dayOf (goDate 2021 3 1 8 0 0) + 1) 0 0 0, []) :=
  C10_time_token_rollover.2.2.1 (goDate 2021 3 1 8 0 0) (goDate 2021 3 1 8 0 0)

theorem set_hm_accessors (X h mi : Int) (hh : 0 ≤ h) (hh2 : h < 24)
    (hmi : 0 ≤ mi) (hmi2 : mi < 60) :
    hourOf (setMinute (setHour X h) mi) = h ∧
    minuteOf (setMinute (setHour X h) mi) = mi := by
  obtain ⟨_, _, _, _, _, _, m1, m2, _, _⟩ := accessor_bounds X
  have hs := setHour_val X h
  have hY : hourOf (setHour X h) = h := by
    rw [hs]
    simp only [hourOf]
    omega
  have hY2 : setHour X h / 86400 = X / 86400 := by
    rw [hs]
    omega
  have hm := setMinute_val (setHour X h) mi
  rw [hY, hY2] at hm
  constructor <;> rw [hm] <;> simp only [hourOf, minuteOf] <;> omega

theorem AddDays_sec_zero (t n : Int) (h : secondOf t = 0) : AddDays t n % 60 = 0 := by
  have := (hmi_addDate t 0 0 n).2.2
  unfold AddDays
  unfold secondOf at this h
  omega

/-- C5: a weekday-name token resolves to the anchor's date plus
`distance` days where `distance = targetDow - anchorDow`, increased by 7
exactly when that difference is negative — an anchor already on the named
weekday resolves to the current day, not next week — and a trailing
time-of-day token sets the hour and minute, while at end of input the
anchor's time of day is kept. -/
theorem C5_weekday_resolution (now start : Int) (v : String) (w h mi : Int)
    (hv : Days v = w) (hh : 0 ≤ h) (hh2 : h < 24) (hmi : 0 ≤ mi) (hmi2 : mi < 60) :
    (parseTimeSpec now start [{ val := v, type := .TokDay }]
        = .ok (AddDays (NewTime start)
            (w - weekdayOf start + (if w - weekdayOf start < 0 then 7 else 0)), [])
      ∧ hourOf (AddDays (NewTime start)
            (w - weekdayOf start + (if w - weekdayOf start < 0 then 7 else 0)))
          = hourOf start
      ∧ minuteOf (AddDays (NewTime start)
            (w - weekdayOf start + (if w - weekdayOf start < 0 then 7 else 0)))
          = minuteOf start) ∧
    (w = weekdayOf start →
      parseTimeSpec now start [{ val := v, type := .TokDay }]
        = .ok (NewTime start, [])) ∧
    (parseTimeSpec now start [{ val := v, type := .TokDay },
        { type := .TokTime, hour := h, minute := mi }]
        = .ok (setMinute (setHour (AddDays (NewTime start)
            (w - weekdayOf start + (if w - weekdayOf start < 0 then 7 else 0))) h) mi, [])
      ∧ hourOf (setMinute (setHour (AddDays (NewTime start)
          (w - weekdayOf start + (if w - weekdayOf start < 0 then 7 else 0))) h) mi) = h
      ∧ minuteOf (setMinute (setHour (AddDays (NewTime start)
          (w - weekdayOf start + (if w - weekdayOf start < 0 then 7 else 0))) h) mi) = mi) := by
  have hdist : (if Days v < weekdayOf start then Days v + 7 else Days v)
        - weekdayOf start
      = w - weekdayOf start + (if w - weekdayOf start < 0 then 7 else 0) := by
    rw [hv]
    omega
  have hhour := hmi_addDate (NewTime start) 0 0
    (w - weekdayOf start + (if w - weekdayOf start < 0 then 7 else 0))
  obtain ⟨na1, na2, na3, na4, na5, na6⟩ := NewTime_accessors start
  refine ⟨⟨?_, ?_, ?_⟩, ?_, ⟨?_, ?_, ?_⟩⟩
  · simp only [parseTimeSpec, parseTimeSpecLoop, timeParse, if_true, hdist]
  · rw [show AddDays (NewTime start)
        (w - weekdayOf start + (if w - weekdayOf start < 0 then 7 else 0))
        = addDate (NewTime start) 0 0
          (w - weekdayOf start + (if w - weekdayOf start < 0 then 7 else 0)) from rfl,
      hhour.1, na4]
  · rw [show AddDays (NewTime start)
        (w - weekdayOf start + (if w - weekdayOf start < 0 then 7 else 0))
        = addDate (NewTime start) 0 0
          (w - weekdayOf start + (if w - weekdayOf start < 0 then 7 else 0)) from rfl,
      hhour.2.1, na5]
  · intro hsame
    have hz : (if Days v < weekdayOf start then Days v + 7 else Days v)
        - weekdayOf start = 0 := by
      rw [hv]
      omega
    simp only [parseTimeSpec, parseTimeSpecLoop, timeParse, if_true, hz]
    rw [show AddDays (NewTime start) 0 = addDate (NewTime start) 0 0 0 from rfl,
      addDate_zero]
  · have hsec : AddDays (NewTime start)
        (w - weekdayOf start + (if w - weekdayOf start < 0 then 7 else 0)) % 60 = 0 :=
      AddDays_sec_zero (NewTime start) _ na6
    simp only [parseTimeSpec, parseTimeSpecLoop, timeParse, ParsePM, GetToken, hdist]
    rw [NewTime_of_sec_zero _ hsec]
    simp
  · exact (set_hm_accessors _ h mi hh hh2 hmi hmi2).1
  · exact (set_hm_accessors _ h mi hh hh2 hmi hmi2).2

/-- C5 witness: anchor Monday 2021-03-01 08:00 and the name "monday"
resolve to the same day at the anchor's time of day. -/
theorem C5_weekday_resolution_witness :
    parseTimeSpec (goDate 2021 3 1 8 0 0) (goDate 2021 3 1 8 0 0)
      [{ val := "monday", type := .TokDay }]
      = .ok (NewTime (goDate 2021 3 1 8 0 0), []) :=
  (C5_weekday_resolution (goDate 2021 3 1 8 0 0) (goDate 2021 3 1 8 0 0)
    "monday" 1 0 0 (by decide) (by decide) (by decide) (by decide)
    (by decide)).2.1 (by decide)
theorem date_set_hm (p h mi : Int) (hh : 0 ≤ h) (hh2 : h < 24)
    (hmi : 0 ≤ mi) (hmi2 : mi < 60) :
    yearOf (setMinute (setHour p h) mi) = yearOf p ∧
    monthOf (setMinute (setHour p h) mi) = monthOf p ∧
    dayOf (setMinute (setHour p h) mi) = dayOf p := by
  obtain ⟨b1, b2, b3, b4, _, _, m1, m2, _, _⟩ := accessor_bounds p
  obtain ⟨d1, d2, d3⟩ := date_accessors_goDate (yearOf p) (monthOf p) (dayOf p)
    h (minuteOf p) 0 b1 b2 b3 b4 (by omega) (by omega)
  obtain ⟨e1, e2, _⟩ := hmi_accessors_goDate (yearOf p) (monthOf p) (dayOf p)
    h (minuteOf p) 0 hh (by omega) m1 m2 (by omega) (by omega)
  have hsh : setHour p h = goDate (yearOf p) (monthOf p) (dayOf p) h (minuteOf p) 0 := rfl
  rw [show setMinute (setHour p h) mi
      = goDate (yearOf (setHour p h)) (monthOf (setHour p h)) (dayOf (setHour p h))
          (hourOf (setHour p h)) mi 0 from rfl]
  rw [hsh, d1, d2, d3, e1]
  exact date_accessors_goDate (yearOf p) (monthOf p) (dayOf p) h mi 0
    b1 b2 b3 b4 (by omega) (by omega)

set_option maxRecDepth 4000 in
/-- C6 counterexample: with anchor June 15 2021 and input tokens for
"july 4 11:59 2018", the named month (7) is at or after the anchor's month
(6), so the claim requires the resolved year to be the anchor's year 2021;
the explicit trailing year token makes the resolved year 2018. -/
theorem C6_month_year_counterexample :
    Months "july" = 7 ∧ monthOf (goDate 2021 6 15 8 0 0) = 6 ∧
    yearOf (goDate 2021 6 15 8 0 0) = 2021 ∧
    parseTimeSpec 0 (goDate 2021 6 15 8 0 0)
      [{ val := "july", type := .TokMonth },
       { val := "4", num := 4, type := .TokNumber },
       { val := "11:59", type := .TokTime, hour := 11, minute := 59 },
       { val := "2018", num := 2018, type := .TokNumber }]
      = .ok (goDate 2018 7 4 11 59 0, []) ∧
    yearOf (goDate 2018 7 4 11 59 0) = 2018 := by decide

/-- C6 amended: in the month-name branch the year chosen to build the date
equals the anchor's year exactly when the named month's number is at least
the anchor's month number, and the anchor's year plus one otherwise; this
is the year of the result whenever no explicit four-digit year token
follows and the time-of-day token is in range (an explicit trailing year
token overrides it, and an out-of-range time token can roll the date). -/
theorem C6_month_year_amended (now start : Int) (v nv tv : String)
    (mo n h mi res : Int) (hmo : Months v = mo)
    (hh : 0 ≤ h) (hh2 : h < 24) (hmi : 0 ≤ mi) (hmi2 : mi < 60)
    (hok : parseTimeSpec now start
      [{ val := v, type := .TokMonth },
       { val := nv, num := n, type := .TokNumber },
       { val := tv, type := .TokTime, hour := h, minute := mi }]
      = .ok (res, [])) :
    yearOf res = if mo < monthOf start then yearOf start + 1 else yearOf start := by
  obtain ⟨_, _, _, _, s5, s6, s7, s8, s9, s10⟩ := accessor_bounds start
  simp [parseTimeSpec, parseTimeSpecLoop, GetToken, timeParse, ParsePM,
    goTimeParseYMD, hmo] at hok
  by_cases hcond : (1000 ≤ (if mo < monthOf start then yearOf start + 1 else yearOf start)
      ∧ (if mo < monthOf start then yearOf start + 1 else yearOf start) ≤ 9999
      ∧ 1 ≤ mo ∧ mo ≤ 12 ∧ 1 ≤ n
      ∧ n ≤ daysInMonth (if mo < monthOf start then yearOf start + 1 else yearOf start) mo)
  · rw [if_pos hcond] at hok
    obtain ⟨hy1, hy2, hmo1, hmo2, hn1, hn2⟩ := hcond
    simp only [Except.ok.injEq, Prod.mk.injEq] at hok
    obtain ⟨hres, -⟩ := hok
    obtain ⟨p1, p2, p3⟩ := date_accessors_goDate
      (if mo < monthOf start then yearOf start + 1 else yearOf start) mo n
      (hourOf start) (minuteOf start) (secondOf start) hmo1 hmo2 hn1 hn2
      (by omega) (by omega)
    have hNN : NewTime (NewTime (goDate
        (if mo < monthOf start then yearOf start + 1 else yearOf start) mo n
        (hourOf start) (minuteOf start) (secondOf start)))
        = NewTime (goDate
        (if mo < monthOf start then yearOf start + 1 else yearOf start) mo n
        (hourOf start) (minuteOf start) (secondOf start)) :=
      NewTime_of_sec_zero _ ((NewTime_accessors _).2.2.2.2.2)
    rw [← hres, hNN, (date_set_hm _ h mi hh hh2 hmi hmi2).1,
      (NewTime_accessors _).1, p1]
  · rw [if_neg hcond] at hok
    simp at hok

set_option maxRecDepth 4000 in
/-- C6 witness: anchor June 15 2021 with "february 15 11:30" (no explicit
year) resolves to year 2022 because February precedes June. -/
theorem C6_month_year_amended_witness :
    yearOf (goDate 2022 2 15 11 30 0)
      = if (2 : Int) < monthOf (goDate 2021 6 15 8 0 0)
        then yearOf (goDate 2021 6 15 8 0 0) + 1
        else yearOf (goDate 2021 6 15 8 0 0) :=
  C6_month_year_amended 0 (goDate 2021 6 15 8 0 0) "february" "15" "11:30" 2 15 11 30
    (goDate 2022 2 15 11 30 0) (by decide) (by decide) (by decide) (by decide)
    (by decide) (by decide)

set_option maxRecDepth 4000 in
/-- C8 counterexample: with `now` = 2021-02-10 and anchor (start) =
2021-03-31, the end timespec "15:00 tomorrow" resolves to 2021-03-11 15:00,
not to now's date plus one day (2021-02-11 15:00): the intermediate
`Month(2)` step normalises February 31 to March 3 before the day is set. -/
theorem C8_tomorrow_counterexample :
    parseTimeSpec (goDate 2021 2 10 8 0 0) (goDate 2021 3 31 8 0 0)
      [{ val := "15:00", type := .TokTime, hour := 15, minute := 0 },
       { val := "tomorrow", type := .TokTomorrow }]
      = .ok (goDate 2021 3 11 15 0 0, []) ∧
    goDate 2021 3 11 15 0 0 ≠ goDate 2021 2 11 15 0 0 := by decide

/-- C8 amended: after a leading time token, a trailing `Tomorrow` token
re-anchors the result to `now` by setting the year, month and day in turn
(each step running Go's `time.Date` normalisation) and then shifts one
calendar day forward; whenever the anchor's day-of-month fits both in the
anchor's month of now's year and in now's month of now's year, the result
is now's calendar date plus one day at the given time — but when the
anchor's day overflows now's month, the intermediate normalisation rolls
into a later month first, so the result can differ from now's date plus
one day. -/
theorem C8_tomorrow_reanchors_to_now (now start h mi : Int) (tv : String)
    (hh : 0 ≤ h) (hh2 : h < 24) (hmi : 0 ≤ mi) (hmi2 : mi < 60)
    (hfit1 : dayOf start ≤ daysInMonth (yearOf now) (monthOf start))
    (hfit2 : dayOf start ≤ daysInMonth (yearOf now) (monthOf now)) :
    parseTimeSpec now start
      [{ val := tv, type := .TokTime, hour := h, minute := mi },
       { val := "tomorrow", type := .TokTomorrow }]
      = .ok (goDate (yearOf now) (monthOf now) (dayOf now + 1) h mi 0, []) := by
  obtain ⟨a1, a2, a3, a4, _, _, _, _, _, _⟩ := accessor_bounds start
  obtain ⟨n1, n2, n3, n4, _, _, _, _, _, _⟩ := accessor_bounds now
  obtain ⟨q1, q2, q3⟩ := date_set_hm (NewTime start) h mi hh hh2 hmi hmi2
  obtain ⟨r1, r2⟩ := set_hm_accessors (NewTime start) h mi hh hh2 hmi hmi2
  obtain ⟨na1, na2, na3, na4, na5, na6⟩ := NewTime_accessors start
  simp only [parseTimeSpec, parseTimeSpecLoop, ParsePM, GetToken]
  simp only [show (TokType.TokTomorrow = TokType.TokAM) = False from by simp,
    show (TokType.TokTomorrow = TokType.TokPM) = False from by simp,
    show (TokType.TokTomorrow = TokType.TokTomorrow) = True from by simp,
    if_true, if_false, iff_false]
  have hstep1 : setYear (setMinute (setHour (NewTime start) h) mi) (yearOf now)
      = goDate (yearOf now) (monthOf start) (dayOf start) h mi 0 := by
    unfold setYear
    rw [q2, q3, r1, r2, na2, na3]
  obtain ⟨u1, u2, u3⟩ := date_accessors_goDate (yearOf now) (monthOf start)
    (dayOf start) h mi 0 a1 a2 a3 hfit1 (by omega) (by omega)
  obtain ⟨v1, v2, _⟩ := hmi_accessors_goDate (yearOf now) (monthOf start)
    (dayOf start) h mi 0 hh hh2 hmi hmi2 (by omega) (by omega)
  have hstep2 : setMonth (goDate (yearOf now) (monthOf start) (dayOf start) h mi 0)
      (monthOf now) = goDate (yearOf now) (monthOf now) (dayOf start) h mi 0 := by
    unfold setMonth
    rw [u1, u3, v1, v2]
  obtain ⟨w1, w2, w3⟩ := date_accessors_goDate (yearOf now) (monthOf now)
    (dayOf start) h mi 0 n1 n2 a3 hfit2 (by omega) (by omega)
  obtain ⟨x1, x2, _⟩ := hmi_accessors_goDate (yearOf now) (monthOf now)
    (dayOf start) h mi 0 hh hh2 hmi hmi2 (by omega) (by omega)
  have hstep3 : setDay (goDate (yearOf now) (monthOf now) (dayOf start) h mi 0)
      (dayOf now) = goDate (yearOf now) (monthOf now) (dayOf now) h mi 0 := by
    unfold setDay
    rw [w1, w2, x1, x2]
  obtain ⟨y1, y2, y3⟩ := date_accessors_goDate (yearOf now) (monthOf now)
    (dayOf now) h mi 0 n1 n2 n3 n4 (by omega) (by omega)
  obtain ⟨z1, z2, z3⟩ := hmi_accessors_goDate (yearOf now) (monthOf now)
    (dayOf now) h mi 0 hh hh2 hmi hmi2 (by omega) (by omega)
  have hstep4 : Tomorrow (goDate (yearOf now) (monthOf now) (dayOf now) h mi 0)
      = goDate (yearOf now) (monthOf now) (dayOf now + 1) h mi 0 := by
    unfold Tomorrow addDate
    rw [y1, y2, y3, z1, z2, z3]
    rw [show yearOf now + 0 = yearOf now from by ring,
      show monthOf now + 0 = monthOf now from by ring]
  rw [hstep1, hstep2, hstep3, hstep4]

set_option maxRecDepth 4000 in
/-- C8 witness: now = 2021-02-10, anchor = 2021-03-15 (day 15 fits in
February), so "15:00 tomorrow" resolves to 2021-02-11 15:00. -/
theorem C8_tomorrow_reanchors_to_now_witness :
    parseTimeSpec (goDate 2021 2 10 8 0 0) (goDate 2021 3 15 9 30 0)
      [{ val := "15:00", type := .TokTime, hour := 15, minute := 0 },
       { val := "tomorrow", type := .TokTomorrow }]
      = .ok (goDate (yearOf (goDate 2021 2 10 8 0 0)) (monthOf (goDate 2021 2 10 8 0 0))
          (dayOf (goDate 2021 2 10 8 0 0) + 1) 15 0 0, []) :=
  C8_tomorrow_reanchors_to_now (goDate 2021 2 10 8 0 0) (goDate 2021 3 15 9 30 0)
    15 0 "15:00" (by decide) (by decide) (by decide) (by decide) (by decide) (by decide)
theorem parseRangeToks_ok_bounds (now : Int) (toks : List Token) (s e : Int)
    (h : parseRangeToks now toks = .ok (s, e)) :
    ¬ s < now ∧ ¬ e < s ∧ ¬ e < now := by
  simp only [parseRangeToks] at h
  repeat' split at h
  all_goals simp_all
  all_goals omega

set_option maxRecDepth 2000 in
/-- C1 counterexample: for now = 2021-03-01 08:00 and input "noon", the
first timespec parses successfully, it is not introduced by a leading
Plus/Until/To, and no separator follows it (no tokens remain at all), yet
`ParseRange` succeeds with the pair (now, noon) instead of failing with
"missing separator between start and end". -/
theorem C1_missing_separator_counterexample :
    tokenize ["noon"]
      = .ok [{ val := "noon", type := .TokTime, hour := 12, minute := 0 }] ∧
    parseTimeSpec (goDate 2021 3 1 8 0 0) (goDate 2021 3 1 8 0 0)
      [{ val := "noon", type := .TokTime, hour := 12, minute := 0 }]
      = .ok (goDate 2021 3 1 12 0 0, []) ∧
    ParseRange (goDate 2021 3 1 8 0 0) ["noon"]
      = .ok (goDate 2021 3 1 8 0 0, goDate 2021 3 1 12 0 0) := by decide

/-- C1 amended: when the first timespec parses successfully, is not
introduced by a leading Plus/Until/To, and is not in the past, then if
tokens remain and the next token is not one of Until/To/Plus/For,
`ParseRange` fails with the hard error "missing separator between start and
end"; when no tokens remain at all, `ParseRange` succeeds with the single
timespec as the end of a range starting now. -/
theorem C1_missing_separator (now : Int) (args : List String)
    (toks toks1 rest : List Token) (t : Token) (tval : Int)
    (htok : tokenize args = .ok toks)
    (hskip : skipFrom toks = .ok (t, toks1))
    (hnp : t.type ≠ .TokPlus) (hnu : t.type ≠ .TokUntil) (hnt : t.type ≠ .TokTo)
    (hparse : parseTimeSpec now now toks1 = .ok (tval, rest))
    (hpast : ¬ tval < now) :
    (rest = [] → ParseRange now args = .ok (now, tval)) ∧
    (∀ t2 rest2, rest = t2 :: rest2 →
      t2.type ≠ .TokUntil → t2.type ≠ .TokTo → t2.type ≠ .TokPlus → t2.type ≠ .TokFor →
      ParseRange now args
        = .error { msg := "missing separator between start and end" }) := by
  have hstep : ParseRange now args = parseRangeToks now toks := by
    simp only [ParseRange, htok]
  rw [hstep]
  simp only [parseRangeToks, hskip]
  rw [if_neg (by simp [hnu, hnt])]
  rw [hparse]
  simp only [if_neg hpast]
  rw [if_neg (by simp [hnp, hnu, hnt])]
  constructor
  · intro hrest
    subst hrest
    simp
  · intro t2 rest2 hrest hn1 hn2 hn3 hn4
    subst hrest
    simp only []
    rw [if_pos (by simp [hn1, hn2, hn3, hn4])]

set_option maxRecDepth 8000 in
/-- C1 witness: with two unseparated timespecs ("noon noon") the parse
fails with "missing separator between start and end". -/
theorem C1_missing_separator_witness :
    ParseRange (goDate 2021 3 1 8 0 0) ["noon", "noon"]
      = .error { msg := "missing separator between start and end" } :=
  (C1_missing_separator (goDate 2021 3 1 8 0 0) ["noon", "noon"]
    [{ val := "noon", type := .TokTime, hour := 12, minute := 0 },
     { val := "noon", type := .TokTime, hour := 12, minute := 0 }]
    [{ val := "noon", type := .TokTime, hour := 12, minute := 0 },
     { val := "noon", type := .TokTime, hour := 12, minute := 0 }]
    [{ val := "noon", type := .TokTime, hour := 12, minute := 0 }]
    { val := "noon", type := .TokTime, hour := 12, minute := 0 }
    (goDate 2021 3 1 12 0 0)
    (by decide) (by decide) (by decide) (by decide) (by decide) (by decide)
    (by decide)).2
    { val := "noon", type := .TokTime, hour := 12, minute := 0 } [] rfl
    (by decide) (by decide) (by decide) (by decide)

/-- C2: a successful `ParseRange` never returns a start (nor an end) before
`now` and a successful `ParseDuration` never returns a time before `now`;
and whenever the first resolved timespec lies strictly before `now`, the
call fails with the error "start is in the past". -/
theorem C2_start_never_past (now : Int) (args : List String) :
    (∀ s e, ParseRange now args = .ok (s, e) → ¬ s < now ∧ ¬ e < now) ∧
    (∀ e, ParseDuration now args = .ok e → ¬ e < now) ∧
    (∀ toks t toks1 tval rest, tokenize args = .ok toks →
      skipFrom toks = .ok (t, toks1) →
      parseTimeSpec now now
        (if t.type = .TokUntil ∨ t.type = .TokTo then toks1.tail else toks1)
        = .ok (tval, rest) →
      tval < now →
      ParseRange now args = .error { msg := "start is in the past" }) ∧
    (∀ t rest tval rest2, tokenize args = .ok (t :: rest) →
      parseTimeSpec now now
        (if t.type = .TokUntil ∨ t.type = .TokTo then rest else t :: rest)
        = .ok (tval, rest2) →
      tval < now →
      ParseDuration now args = .error { msg := "start is in the past" }) := by
  refine ⟨?_, ?_, ?_, ?_⟩
  · intro s e h
    rw [ParseRange] at h
    split at h
    · exact absurd h (by simp)
    · obtain ⟨b1, _, b3⟩ := parseRangeToks_ok_bounds now _ s e h
      exact ⟨b1, b3⟩
  · intro e h
    rw [ParseDuration] at h
    split at h
    · exact absurd h (by simp)
    · simp only [parseDurationToks] at h
      repeat' split at h
      all_goals simp_all
  · intro toks t toks1 tval rest htok hskip hparse hpast
    have hstep : ParseRange now args = parseRangeToks now toks := by
      simp only [ParseRange, htok]
    rw [hstep]
    simp only [parseRangeToks, hskip, hparse]
    rw [if_pos hpast]
  · intro t rest tval rest2 htok hparse hpast
    have hstep : ParseDuration now args = parseDurationToks now (t :: rest) := by
      simp only [ParseDuration, htok]
    rw [hstep]
    simp only [parseDurationToks, hparse]
    rw [if_pos hpast]

set_option maxRecDepth 8000 in
/-- C2 witness: at 13:00, the input "noon" resolves to a time in the past
and both entry points report "start is in the past"; a successful parse
("15:00") returns a start not before now. -/
theorem C2_start_never_past_witness :
    ParseRange (goDate 2021 3 1 13 0 0) ["noon"]
      = .error { msg := "start is in the past" } ∧
    ParseDuration (goDate 2021 3 1 13 0 0) ["noon"]
      = .error { msg := "start is in the past" } ∧
    ¬ goDate 2021 3 1 13 0 0 < goDate 2021 3 1 13 0 0 ∧
    ¬ goDate 2021 3 1 15 0 0 < goDate 2021 3 1 13 0 0 := by
  refine ⟨?_, ?_, by decide, ?_⟩
  · exact (C2_start_never_past (goDate 2021 3 1 13 0 0) ["noon"]).2.2.1
      [{ val := "noon", type := .TokTime, hour := 12, minute := 0 }]
      { val := "noon", type := .TokTime, hour := 12, minute := 0 }
      [{ val := "noon", type := .TokTime, hour := 12, minute := 0 }]
      (goDate 2021 3 1 12 0 0) [] (by decide) (by decide) (by decide) (by decide)
  · exact (C2_start_never_past (goDate 2021 3 1 13 0 0) ["noon"]).2.2.2
      { val := "noon", type := .TokTime, hour := 12, minute := 0 } []
      (goDate 2021 3 1 12 0 0) [] (by decide) (by decide) (by decide)
  · exact ((C2_start_never_past (goDate 2021 3 1 13 0 0) ["15:00"]).1
      (goDate 2021 3 1 13 0 0) (goDate 2021 3 1 15 0 0) (by decide)).2

/-- C3: in the two-timespec path, once the second timespec has parsed and
the queue is empty, the end is rounded to the nearest minute and compared
with the start: a rounded end strictly before the start fails with
"end before start", otherwise the pair (start, rounded end) is returned —
and every successful `ParseRange` returns a pair whose end is not strictly
before its start. -/
theorem C3_end_not_before_start (now : Int) (args : List String) :
    (∀ s e, ParseRange now args = .ok (s, e) → ¬ e < s) ∧
    (∀ toks t toks1 tval t2 rest tval2, tokenize args = .ok toks →
      skipFrom toks = .ok (t, toks1) →
      t.type ≠ .TokPlus → t.type ≠ .TokUntil → t.type ≠ .TokTo →
      parseTimeSpec now now toks1 = .ok (tval, t2 :: rest) →
      ¬ tval < now →
      (t2.type = .TokUntil ∨ t2.type = .TokTo ∨ t2.type = .TokPlus ∨ t2.type = .TokFor) →
      parseTimeSpec now tval
        (if t2.type = .TokPlus ∨ t2.type = .TokFor then t2 :: rest else rest)
        = .ok (tval2, []) →
      (goRound tval2 60 < tval →
        ParseRange now args = .error { msg := "end before start" }) ∧
      (¬ goRound tval2 60 < tval →
        ParseRange now args = .ok (tval, goRound tval2 60))) := by
  refine ⟨?_, ?_⟩
  · intro s e h
    rw [ParseRange] at h
    split at h
    · exact absurd h (by simp)
    · exact (parseRangeToks_ok_bounds now _ s e h).2.1
  · intro toks t toks1 tval t2 rest tval2 htok hskip hnp hnu hnt hparse hpast hsep hparse2
    have hstep : ParseRange now args = parseRangeToks now toks := by
      simp only [ParseRange, htok]
    rw [hstep]
    simp only [parseRangeToks, hskip]
    rw [if_neg (by simp [hnu, hnt])]
    rw [hparse]
    simp only [if_neg hpast]
    rw [if_neg (by simp [hnp, hnu, hnt])]
    rw [if_neg (by simp only [not_not]; tauto)]
    simp only [List.tail_cons]
    rw [hparse2]
    dsimp only
    constructor
    · intro hlt
      rw [if_pos hlt]
    · intro hge
      rw [if_neg hge]

set_option maxRecDepth 8000 in
/-- C3 witness: "noon to 1pm" parses to the pair (12:00, 13:00) with the
end rounded to the nearest minute and not before the start. -/
theorem C3_end_not_before_start_witness :
    ParseRange (goDate 2021 3 1 8 0 0) ["noon", "to", "1pm"]
      = .ok (goDate 2021 3 1 12 0 0, goRound (goDate 2021 3 1 13 0 0) 60) :=
  ((C3_end_not_before_start (goDate 2021 3 1 8 0 0) ["noon", "to", "1pm"]).2
    [{ val := "noon", type := .TokTime, hour := 12, minute := 0 },
     { val := "to", type := .TokTo },
     { val := "1", num := 1, type := .TokNumber },
     { val := "pm", type := .TokPM }]
    { val := "noon", type := .TokTime, hour := 12, minute := 0 }
    [{ val := "noon", type := .TokTime, hour := 12, minute := 0 },
     { val := "to", type := .TokTo },
     { val := "1", num := 1, type := .TokNumber },
     { val := "pm", type := .TokPM }]
    (goDate 2021 3 1 12 0 0)
    { val := "to", type := .TokTo }
    [{ val := "1", num := 1, type := .TokNumber },
     { val := "pm", type := .TokPM }]
    (goDate 2021 3 1 13 0 0)
    (by decide) (by decide) (by decide) (by decide) (by decide) (by decide)
    (by decide) (by decide) (by decide)).2 (by decide)
